import Mathlib

/-!
Verification of the IL6 control-catalog extraction engine.

The definitions below are a shallow embedding of the Python sources:
* `src/cnssi_1253/extract_cnssi_1253.py` (table pipeline:
  `detect_table_structure`, `parse_control_row`),
* `src/classified_information/superseded/classified_information_overlay_extractor.py`
  (free-text line pipeline: `_find_controls_and_attributes` and its helpers),
* `src/cnssi_1253/superseded/cnssi_1253_overlay_extractor.py`
  (record-store merge in `_finalize_current_control`),
* `src/nist_catalog/nist_sorter.py` (`parse_control_id`, `sort_controls`).

Python table cells that may be `None` are modelled as `Option String`
(`none` = Python `None`); Python truthiness of a cell is "`some s` with
`s ≠ ""`".  Python `str.strip()` is modelled by `pyStrip` (ASCII
whitespace).  Python `dict` insertion is modelled by association-list
update that replaces in place (`dictSet`), matching dict key-overwrite
semantics up to iteration order of untouched keys.
-/

/-- ASCII whitespace characters stripped by Python `str.strip()`. -/
def isSpaceChar (c : Char) : Bool :=
  c = ' ' || c = '\t' || c = '\n' || c = '\x0d' || c = '\x0b' || c = '\x0c'

/-- Python `str.strip()` on a character list: drop whitespace from both ends. -/
def pyStripList (l : List Char) : List Char :=
  ((l.dropWhile isSpaceChar).reverse.dropWhile isSpaceChar).reverse

/-- Python `str.strip()`. -/
def pyStrip (s : String) : String :=
  ⟨pyStripList s.data⟩

/-- Substring test (Python `needle in hay` on strings), on character lists. -/
def hasSub (needle : List Char) : List Char → Bool
  | [] => decide (needle = [])
  | c :: t => needle.isPrefixOf (c :: t) || hasSub needle t

/-- Python `'Withdrawn' in str(cell)` guarded by cell truthiness. -/
def cellWithdrawn (cell : Option String) : Bool :=
  match cell with
  | none => false
  | some s => (s ≠ "" : Bool) && hasSub "Withdrawn".data s.data

/-- Association-list lookup: Python `d.get(k)` / `d[k]`. -/
def dictGet {α : Type} (d : List (String × α)) (k : String) : Option α :=
  (d.find? (fun p => p.1 = k)).map (·.2)

/-- Association-list update: Python `d[k] = v` (replace in place, else append). -/
def dictSet {α : Type} : List (String × α) → String → α → List (String × α)
  | [], k, v => [(k, v)]
  | (k', v') :: rest, k, v =>
    if k' = k then (k, v) :: rest else (k', v') :: dictSet rest k v

/-- Decimal value of a digit run (Python `int` on a digit string). -/
def digitsToNat (l : List Char) : Nat :=
  l.foldl (fun n c => 10 * n + (c.toNat - 48)) 0

/-- Python `str.split(sep)` for a one-character separator: always returns
at least one piece, and empty pieces between adjacent separators. -/
def splitChar (sep : Char) : List Char → List (List Char)
  | [] => [[]]
  | c :: t =>
    let r := splitChar sep t
    if c = sep then [] :: r
    else
      match r with
      | h :: rest => (c :: h) :: rest
      | [] => [[c]]

/-- Python `str.lower()`, per character (ASCII). -/
def lowerStr (s : String) : String :=
  ⟨s.data.map Char.toLower⟩

/-!
## IdentifierMatcher

`extract_cnssi_1253.py` line 95 tests a cell against the anchored regex
`^[A-Z]{2}-\d+(\(\d+\))?$` with `re.match` (a full match, because of the
trailing `$`); on success the matched cell *is* the control id.  The
embedding below parses the same language deterministically: the
alternation-free shape of the regex (`(` and the end of string are not
digits, `-` is not an upper-case letter) makes greedy matching without
backtracking equivalent.  Character classes `[A-Z]`/`\d` are ASCII, as in
Python `re` for these literals.
-/

/-- The part of the identifier regex after the family letters:
`-\d+(\(\d+\))?` anchored at the end. -/
def idTail : List Char → Bool
  | '-' :: rest =>
    let ds := rest.takeWhile Char.isDigit
    let r1 := rest.dropWhile Char.isDigit
    (decide (ds ≠ [])) &&
      (match r1 with
       | [] => true
       | '(' :: r2 =>
         let ds2 := r2.takeWhile Char.isDigit
         let r3 := r2.dropWhile Char.isDigit
         (decide (ds2 ≠ [])) && decide (r3 = [')'])
       | _ => false)
  | _ => false

/-- Full-match of `^[A-Z]{2}-\d+(\(\d+\))?$`
(`extract_cnssi_1253.py`, `parse_control_row` line 95). -/
def cnssiIdMatch (s : String) : Bool :=
  (decide ((s.data.takeWhile Char.isUpper).length = 2)) &&
    idTail (s.data.dropWhile Char.isUpper)

/-- Modelled from the spec: the identifier grammar
`LETTERS '-' DIGITS ['(' DIGITS ')']` with letters of length 2 to 3
(spec section 3 invariant / section 4.1 contract).  Shares the tail with
the source matcher so the two definitions differ exactly in the accepted
letter counts. -/
def specValidId (s : String) : Bool :=
  (decide (2 ≤ (s.data.takeWhile Char.isUpper).length) &&
    decide ((s.data.takeWhile Char.isUpper).length ≤ 3)) &&
    idTail (s.data.dropWhile Char.isUpper)

/-!
## TableStructureDetector (`detect_table_structure`, extract_cnssi_1253.py 20-77)

`structure.ranges` is a Python dict keyed by strings such as `"C-L"`;
it is modelled as an association list with `dictSet` insertion.
-/

/-- Column ranges plus the two free-text column indices. -/
structure TableStructure where
  ranges : List (String × Nat × Nat)
  justification_col : Option Nat
  param_value_col : Option Nat
deriving DecidableEq, Repr

/-- Positions of `C`/`I`/`A` tokens in a header row (lines 26-29):
a dict from the stripped token to its column index (later columns
overwrite).  Computed by the source but never used for the ranges. -/
def ciaPositions (row : List (Option String)) : List (String × Nat) :=
  (List.range row.length).foldl
    (fun acc i =>
      match row.getD i none with
      | none => acc
      | some s =>
        if s ≠ "" && (pyStrip s = "C" || pyStrip s = "I" || pyStrip s = "A") then
          dictSet acc (pyStrip s) i
        else acc)
    []

/-- `(column, stripped token)` for every truthy `L`/`M`/`H` cell of a header
row, in column order (lines 33-36). -/
def lmhPositions (row : List (Option String)) : List (Nat × String) :=
  (List.range row.length).foldr
    (fun i acc =>
      match row.getD i none with
      | none => acc
      | some s =>
        if s ≠ "" && (pyStrip s = "L" || pyStrip s = "M" || pyStrip s = "H") then
          (i, pyStrip s) :: acc
        else acc)
    []

/-- End column for the range starting at `col`: one before the next `L/M/H`
position, or `col + 2` for the last one (lines 48-57, the `for`/`else`). -/
def nextEnd (all : List (Nat × String)) (col : Nat) : Nat :=
  match all.find? (fun p => col < p.1) with
  | some p => p.1 - 1
  | none => col + 2

/-- The grouping loop of lines 40-65: assign each `L/M/H` position to the
current `C`/`I`/`A` anchor, advancing the anchor after every three tokens. -/
def assignRanges (all : List (Nat × String)) :
    List (Nat × String) → Nat → Nat → List (String × Nat × Nat) →
    List (String × Nat × Nat)
  | [], _, _, acc => acc
  | (col, level) :: rest, ciaIdx, levelCount, acc =>
    if ciaIdx < 3 then
      let cia := (["C", "I", "A"].getD ciaIdx "")
      let acc2 := dictSet acc (cia ++ "-" ++ level) (col, nextEnd all col)
      if levelCount + 1 ≥ 3 then assignRanges all rest (ciaIdx + 1) 0 acc2
      else assignRanges all rest ciaIdx (levelCount + 1) acc2
    else assignRanges all rest ciaIdx levelCount acc

/-- Last column index (if any) of row 0 whose lowered stripped text contains
`"justification"` / `"parameter"` (lines 68-75; the `elif` makes
`justification` win when a cell contains both substrings). -/
def freeTextCols (row : List (Option String)) : Option Nat × Option Nat :=
  (List.range row.length).foldl
    (fun acc i =>
      match row.getD i none with
      | none => acc
      | some s =>
        if s ≠ "" then
          let low := lowerStr (pyStrip s)
          if hasSub "justification".data low.data then (some i, acc.2)
          else if hasSub "parameter".data low.data then (acc.1, some i)
          else acc
        else acc)
    (none, none)

/-- `detect_table_structure` (lines 20-77). -/
def detect_table_structure (header_rows : List (List (Option String))) :
    TableStructure :=
  let _cia := if header_rows.length ≥ 2 then ciaPositions (header_rows.getD 1 []) else []
  let ranges :=
    if header_rows.length ≥ 3 then
      let all := lmhPositions (header_rows.getD 2 [])
      assignRanges all all 0 0 []
    else []
  let cols :=
    if header_rows.length ≥ 1 then freeTextCols (header_rows.getD 0 []) else (none, none)
  { ranges := ranges, justification_col := cols.1, param_value_col := cols.2 }

/-!
## RowClassifier (`parse_control_row`, extract_cnssi_1253.py 79-202)

The withdrawn test (line 85) feeds the two uses of `is_withdrawn`
(lines 182 and 199) and nothing else; `parseCore` takes that boolean as
an explicit parameter so that its influence can be stated, and
`parse_control_row` instantiates it exactly as the source does.
-/

/-- The nine CIA-by-level selection booleans (lines 122-126). -/
structure Selections where
  c_low : Bool
  c_moderate : Bool
  c_high : Bool
  i_low : Bool
  i_moderate : Bool
  i_high : Bool
  a_low : Bool
  a_moderate : Bool
  a_high : Bool
deriving DecidableEq, Repr

/-- All selections initialised to `False` (lines 122-126). -/
def selInit : Selections :=
  ⟨false, false, false, false, false, false, false, false, false⟩

/-- `any(any(level ...) for objective ...)` over the nine booleans
(lines 168-171). -/
def anySelected (sel : Selections) : Bool :=
  sel.c_low || sel.c_moderate || sel.c_high ||
  sel.i_low || sel.i_moderate || sel.i_high ||
  sel.a_low || sel.a_moderate || sel.a_high

/-- One extracted control record.  The Python result dict carries a
`'withdrawn'` key only when the row is withdrawn and a
`selections['special_text']` entry only for the two special families;
both are modelled as always-present fields (`withdrawn = false` /
`special_text = none` meaning "key absent"). -/
structure ControlRecord where
  control_id : String
  title : String
  selected : Bool
  selections : Selections
  special_text : Option String
  parameter_value : Option String
  justification : Option String
  withdrawn : Bool
deriving DecidableEq, Repr

/-- Fixed annotation for the organization-wide family (line 117). -/
def pmSpecialText : String :=
  "Deployed organization-wide. Supports information security program. Not associated with security control baselines. Independent of any system impact level."

/-- Fixed annotation for the excluded-from-baseline family (line 119). -/
def ptSpecialText : String :=
  "Personally Identifiable Information Processing and Transparency control are not allocated to the security control baselines."

/-- Lines 92-98: the first of the first four cells whose stripped text
full-matches the identifier regex, together with its column. -/
def findControlId (row : List (Option String)) : Option (String × Nat) :=
  (List.range (min 4 row.length)).findSome? fun i =>
    match row.getD i none with
    | none => none
    | some s =>
      if s ≠ "" && cnssiIdMatch (pyStrip s) then some (pyStrip s, i) else none

/-- Lines 104-109: first non-blank cell within four columns after the
identifier column, stripped; `""` when none is found. -/
def findTitle (row : List (Option String)) (cidx : Nat) : String :=
  ((List.range' 1 4).findSome? fun off =>
    let idx := cidx + off
    if idx < row.length then
      match row.getD idx none with
      | none => none
      | some s => if s ≠ "" && pyStrip s ≠ "" then some (pyStrip s) else none
    else none).getD ""

/-- `control_id.split('-')[0]` (line 112). -/
def familyOf (cid : String) : String :=
  ⟨cid.data.takeWhile (fun c => c ≠ '-')⟩

/-- `is_selected` (lines 129-133): the stripped cell is exactly `X` or `+`. -/
def isSelectedMark (cell : Option String) : Bool :=
  match cell with
  | none => false
  | some s => pyStrip s = "X" || pyStrip s = "+"

/-- Lines 141-147: `range_name.split('-')` unpacked into two names and
looked up in the two maps.  A key that does not split into exactly two
parts raises `ValueError` in Python; that crash is modelled as `none`. -/
def applyRangeName (sel : Selections) (rname : String) : Option Selections :=
  match splitChar '-' rname.data with
  | [cia0, level0] =>
    let cia : String := ⟨cia0⟩
    let level : String := ⟨level0⟩
    some
      (match cia, level with
       | "C", "L" => { sel with c_low := true }
       | "C", "M" => { sel with c_moderate := true }
       | "C", "H" => { sel with c_high := true }
       | "I", "L" => { sel with i_low := true }
       | "I", "M" => { sel with i_moderate := true }
       | "I", "H" => { sel with i_high := true }
       | "A", "L" => { sel with a_low := true }
       | "A", "M" => { sel with a_moderate := true }
       | "A", "H" => { sel with a_high := true }
       | _, _ => sel)
  | _ => none

/-- Lines 138-148: the first range containing the column wins (`break`). -/
def markStep (s : TableStructure) (sel : Selections) (colIdx : Nat) :
    Option Selections :=
  match s.ranges.find? (fun r => r.2.1 ≤ colIdx && colIdx ≤ r.2.2) with
  | none => some sel
  | some r => applyRangeName sel r.1

/-- Lines 136-148: fold the mark detection over the row's cells. -/
def computeSelections (row : List (Option String)) (s : TableStructure) :
    Option Selections :=
  (List.range row.length).foldlM
    (fun sel i =>
      if isSelectedMark (row.getD i none) then markStep s sel i else some sel)
    selInit

/-- Lines 150-165 (both the justification and the parameter-value column):
the column index is tested for Python truthiness (`None` and `0` both
fail), then bounds, then the cell for truthiness, then the stripped text
against the empty markers. -/
def extractFreeText (col : Option Nat) (row : List (Option String)) :
    Option String :=
  match col with
  | none => none
  | some j =>
    if j ≠ 0 && j < row.length then
      match row.getD j none with
      | none => none
      | some s =>
        if s ≠ "" then
          let t := pyStrip s
          if t ≠ "" && t ≠ "None" && t ≠ "X" && t ≠ "+" then some t else none
        else none
    else none

/-- `parse_control_row` with `is_withdrawn` abstracted as `iw`. -/
def parseCore (row : List (Option String)) (s : TableStructure) (iw : Bool) :
    Option ControlRecord :=
  if row.length < 10 then none
  else
    match findControlId row with
    | none => none
    | some (cid, cidx) =>
      match computeSelections row s with
      | none => none
      | some sel =>
        let family := familyOf cid
        let special :=
          if family = "PM" then some pmSpecialText
          else if family = "PT" then some ptSpecialText
          else none
        let selected1 :=
          if family = "PM" then true
          else if family = "PT" then false
          else anySelected sel
        some
          { control_id := cid
            title := findTitle row cidx
            selected := if iw then false else selected1
            selections := sel
            special_text := special
            parameter_value := extractFreeText s.param_value_col row
            justification := extractFreeText s.justification_col row
            withdrawn := iw }

/-- `parse_control_row` (lines 79-202). -/
def parse_control_row (row : List (Option String)) (s : TableStructure) :
    Option ControlRecord :=
  parseCore row s (row.any cellWithdrawn)

/-!
## LineFieldClassifier
(`classified_information_overlay_extractor.py`, `_find_controls_and_attributes`)

`bcMatch` embeds `re.match(r'^([A-Z]{2}-\d{1,2}),?\s*(.+)$', line)`
(line 117) including its backtracking: the greedy `\d{1,2}` retreats to
one digit when the rest of the pattern fails, and `,?`/`\s*` retreat so
that `.+` can take at least one character.  `enhMatch` embeds
`_flexible_enhancement_match` (lines 91-106): the five case-insensitive
alternatives reduce to the union of
`^Control\s*Enhancement\s*:\s*(\d+(?:,\s*\d+)*)$` (patterns 1-3, all
subsumed by 3) and `^Control Enhancement\s*:\s*(\d+(?:,\s*\d+)*).*$`
(patterns 4-5, single literal space, trailing text allowed as long as
`.` never has to cross a newline; `$` also matches before one final
newline).
-/

/-- `\s*(.+)$` on `rest`: succeeds iff `rest` is non-empty; greedy `\s*`
retreats by one character when everything is whitespace. -/
def tailGroup2 (rest : List Char) : Option (List Char) :=
  match rest with
  | [] => none
  | _ =>
    let t := rest.dropWhile isSpaceChar
    if t = [] then some [rest.getLastD ' '] else some t

/-- `,?\s*(.+)$` on `rest`: prefer consuming the comma, retreat if the
rest of the pattern then fails. -/
def bcTail (rest : List Char) : Option (List Char) :=
  match rest with
  | ',' :: r2 =>
    match tailGroup2 r2 with
    | some g => some g
    | none => tailGroup2 rest
  | _ => tailGroup2 rest

/-- `^([A-Z]{2}-\d{1,2}),?\s*(.+)$`: returns `(group 1, group 2)`. -/
def bcMatch (l : List Char) : Option (List Char × List Char) :=
  match l with
  | a :: b :: c :: d1 :: rest =>
    if a.isUpper && b.isUpper && c = '-' && d1.isDigit then
      match rest with
      | d2 :: r2 =>
        if d2.isDigit then
          match bcTail r2 with
          | some g => some ([a, b, '-', d1, d2], g)
          | none =>
            match bcTail rest with
            | some g => some ([a, b, '-', d1], g)
            | none => none
        else
          match bcTail rest with
          | some g => some ([a, b, '-', d1], g)
          | none => none
      | [] => none
    else none
  | _ => none

/-- Case-insensitive literal-word match: consume `word` (given lowered)
from the front of `l`, returning the rest. -/
def stripCI : List Char → List Char → Option (List Char)
  | [], l => some l
  | _ :: _, [] => none
  | t :: ts, c :: cs => if c.toLower = t then stripCI ts cs else none

/-- The repetition `(?:,\s*\d+)*` of the enhancement-number list, greedy;
returns the consumed text appended to `acc` and the remainder.  The loop
consumes at least two characters per step, so the fuel (one more than
the remainder's length) never runs out and only makes the recursion
structural (the kernel cannot evaluate well-founded recursion). -/
def digitListLoop (acc : List Char) (rest : List Char) : List Char × List Char :=
  go (rest.length + 1) acc rest
where
  go : Nat → List Char → List Char → List Char × List Char
    | 0, acc, rest => (acc, rest)
    | fuel + 1, acc, rest =>
      match rest with
      | ',' :: r2 =>
        if ((r2.dropWhile isSpaceChar).takeWhile Char.isDigit) = [] then
          (acc, ',' :: r2)
        else
          go fuel
            (acc ++ ',' ::
              (r2.takeWhile isSpaceChar ++ (r2.dropWhile isSpaceChar).takeWhile Char.isDigit))
            ((r2.dropWhile isSpaceChar).dropWhile Char.isDigit)
      | other => (acc, other)

/-- The tail of the enhancement patterns after the `':'`: `\s*` then the
greedy digit list, then either the end of the line (patterns 1-3, `$`
also matching before one final newline) or, when the word separator was
the single literal space of patterns 4-5, trailing text that `.` can
match (no newline). -/
def enhTail (sep r6 : List Char) : Option String :=
  let ds := r6.takeWhile Char.isDigit
  if ds = [] then none
  else
    let gr := digitListLoop ds (r6.dropWhile Char.isDigit)
    let core := if gr.2.getLast? = some '\n' then gr.2.dropLast else gr.2
    if core = [] then some ⟨gr.1⟩
    else if sep = [' '] && core.contains '\n' = false then some ⟨gr.1⟩
    else none

/-- `_flexible_enhancement_match`: returns group 1 (the digit list, with
the whitespace that followed each comma) when one of the five patterns
matches. -/
def enhMatch (s : String) : Option String :=
  match stripCI "control".data s.data with
  | none => none
  | some r1 =>
    match stripCI "enhancement".data (r1.dropWhile isSpaceChar) with
    | none => none
    | some r3 =>
      match r3.dropWhile isSpaceChar with
      | ':' :: r5 => enhTail (r1.takeWhile isSpaceChar) (r5.dropWhile isSpaceChar)
      | _ => none

/-- The fixed attribute labels of `_extract_attribute_from_line`
(lines 169-178), in source order. -/
def knownAttributes : List String :=
  ["Justification to Select",
   "Supplemental Guidance",
   "Parameter Value(s)",
   "Parameter Value",
   "Regulatory/Statutory Reference(s)",
   "Control Extension",
   "Control Extension(s)",
   "Control Extension and Parameter Value(s)"]

/-- `_extract_attribute_from_line` (lines 165-183): first label such that
the line starts with `label + ":"`; the content after the colon is
stripped. -/
def extractAttribute (line : String) : Option (String × String) :=
  knownAttributes.findSome? fun attr =>
    if (attr ++ ":").data.isPrefixOf line.data then
      some (attr, pyStrip ⟨line.data.drop (attr.data.length + 1)⟩)
    else none

/-- One record of the line pipeline (`self.controls[...]` value shape). -/
structure ClassRecord where
  name : String
  attributes : List (String × String)
  page : Nat
deriving DecidableEq, Repr

/-- The extractor's mutable cursor fields. -/
structure ExtractorState where
  controls : List (String × ClassRecord)
  current_control : Option String
  current_base_control : Option String
  current_attribute : Option String
deriving DecidableEq, Repr

/-- Lines 133-142: insert one enhancement record per listed number,
re-reading the base control's name from the (updated) store each
iteration, as the source does. -/
def enhInsert (base : String) (page : Nat)
    (controls : List (String × ClassRecord)) (nums : List String) :
    List (String × ClassRecord) :=
  nums.foldl
    (fun cs n =>
      let eid := base ++ "(" ++ pyStrip n ++ ")"
      let baseName := ((dictGet cs base).map (·.name)).getD ""
      dictSet cs eid ⟨baseName, [], page⟩)
    controls

/-- One iteration of the line loop of `_find_controls_and_attributes`
(lines 112-163).  Where the Python would raise `KeyError` (cursor naming
an id or attribute absent from the store — impossible in a real run and
swallowed by the page-level `except`), the state is left unchanged. -/
def processLine (st : ExtractorState) (line : String) (isBold : Bool)
    (page : Nat) : ExtractorState :=
  let bc := bcMatch line.data
  let en := enhMatch line
  if bc.isSome && isBold then
    match bc with
    | some (idChars, nameChars) =>
      let cid : String := ⟨idChars⟩
      { controls := dictSet st.controls cid ⟨pyStrip ⟨nameChars⟩, [], page⟩
        current_control := some cid
        current_base_control := some cid
        current_attribute := none }
    | none => st
  else if en.isSome then
    match st.current_base_control, en with
    | some base, some g =>
      let nums := (splitChar ',' g.data).map (fun p => (⟨p⟩ : String))
      { controls := enhInsert base page st.controls nums
        current_control := some (base ++ "(" ++ pyStrip (nums.getLastD "") ++ ")")
        current_base_control := st.current_base_control
        current_attribute := none }
    | _, _ => st
  else
    let curOk := match st.current_control with
      | some c => c ≠ ""
      | none => false
    if curOk && line.data.contains ':' then
      match extractAttribute line, st.current_control with
      | some (an, ac), some cur =>
        match dictGet st.controls cur with
        | some r =>
          match dictGet r.attributes an with
          | some old =>
            let upd := { r with attributes := dictSet r.attributes an (old ++ " " ++ pyStrip ac) }
            { st with controls := dictSet st.controls cur upd }
          | none =>
            let upd := { r with attributes := dictSet r.attributes an (pyStrip ac) }
            { st with
              controls := dictSet st.controls cur upd
              current_attribute := some an }
        | none => st
      | _, _ => st
    else
      let attrOk := match st.current_attribute with
        | some a => a ≠ ""
        | none => false
      if curOk && attrOk && pyStrip line ≠ "" then
        if !(bc.isSome || en.isSome || (extractAttribute line).isSome) then
          match st.current_control, st.current_attribute with
          | some cur, some a =>
            match dictGet st.controls cur with
            | some r =>
              match dictGet r.attributes a with
              | some old =>
                let upd := { r with attributes := dictSet r.attributes a (old ++ " " ++ pyStrip line) }
                { st with controls := dictSet st.controls cur upd }
              | none => st
            | none => st
          | _, _ => st
        else st
      else st

/-!
## RecordStore merge
(`cnssi_1253_overlay_extractor.py`, `_finalize_current_control` 184-205)
-/

/-- One record of the overlay store. -/
structure OverlayRecord where
  control_text : String
  defined_value : String
deriving DecidableEq, Repr

/-- The per-field merge of lines 195-205: a non-empty,
non-whitespace-only incoming field is appended with a single space (and
the result stripped) to a non-empty existing field, or stored directly
when the existing field is empty; otherwise the existing field stays. -/
def mergeField (existing incoming : String) : String :=
  if incoming ≠ "" && pyStrip incoming ≠ "" then
    if existing ≠ "" then pyStrip (existing ++ " " ++ incoming) else incoming
  else existing

/-- Lines 184-205: insert as-is for a new id, merge field-by-field for an
existing one. -/
def storeUpsert (store : List (String × OverlayRecord)) (cid : String)
    (inc : OverlayRecord) : List (String × OverlayRecord) :=
  match dictGet store cid with
  | none => dictSet store cid inc
  | some ex =>
    dictSet store cid
      ⟨mergeField ex.control_text inc.control_text,
       mergeField ex.defined_value inc.defined_value⟩

/-!
## Natural sort (`nist_sorter.py`)
-/

/-- `parse_control_id` (lines 24-45): the regex
`^([A-Z]{2,3})-(\d+)(?:\((\d+)\))?$`, with enhancement number 0 for base
controls; `None` models the `ValueError` raised on a non-match. -/
def parse_control_id (cid : String) : Option (String × Nat × Nat) :=
  let letters := cid.data.takeWhile Char.isUpper
  if 2 ≤ letters.length && letters.length ≤ 3 then
    match cid.data.dropWhile Char.isUpper with
    | '-' :: rest =>
      let ds := rest.takeWhile Char.isDigit
      if ds = [] then none
      else
        match rest.dropWhile Char.isDigit with
        | [] => some (⟨letters⟩, digitsToNat ds, 0)
        | '(' :: r2 =>
          let ds2 := r2.takeWhile Char.isDigit
          if ds2 ≠ [] && r2.dropWhile Char.isDigit = [')'] then
            some (⟨letters⟩, digitsToNat ds, digitsToNat ds2)
          else none
        | _ => none
    | _ => none
  else none

/-- A catalog entry as far as sorting is concerned (`control['id']`). -/
structure NistControl where
  id : String
deriving DecidableEq, Repr

/-- `sort_key` (lines 58-66): parse result, or the `('ZZZ', 9999, 9999)`
fallback for malformed ids. -/
def sortKey (c : NistControl) : String × Nat × Nat :=
  match parse_control_id c.id with
  | some k => k
  | none => ("ZZZ", 9999, 9999)

/-- Python string `<` : lexicographic comparison of code points. -/
def listLtChar : List Char → List Char → Bool
  | _, [] => false
  | [], _ :: _ => true
  | a :: ta, b :: tb =>
    if a.toNat < b.toNat then true
    else if b.toNat < a.toNat then false
    else listLtChar ta tb

/-- Python tuple `≤` on a `(family, base, enhancement)` sort key. -/
def keyLe (k1 k2 : String × Nat × Nat) : Bool :=
  listLtChar k1.1.data k2.1.data ||
    (k1.1 == k2.1 &&
      (k1.2.1 < k2.2.1 || (k1.2.1 == k2.2.1 && k1.2.2 ≤ k2.2.2)))

/-- `sort_controls` (lines 48-68): Python `sorted` is a stable sort by
`sort_key`; a stable sort over a total preorder is unique, so it is
modelled by insertion sort (stable, and executable by the kernel). -/
def sort_controls (l : List NistControl) : List NistControl :=
  l.insertionSort (fun a b => keyLe (sortKey a) (sortKey b) = true)

/-!
## Claims about RowClassifier (C1, C2, C9, C10)
-/

/-- C1: for every table row parsed by `parse_control_row` in which some
cell contains the literal substring `"Withdrawn"`, the returned record
has `selected = false`, regardless of any `X`/`+` marks in the row and
regardless of the family-level overrides. -/
theorem claim_C1 (row : List (Option String)) (s : TableStructure)
    (r : ControlRecord) (h : parse_control_row row s = some r)
    (hw : row.any cellWithdrawn = true) : r.selected = false := by
  rw [parse_control_row, hw, parseCore] at h
  split at h
  · simp at h
  · split at h
    · simp at h
    · split at h
      · simp at h
      · rw [Option.some.injEq] at h
        subst h
        simp

/-- Shared sample column structure for concrete rows (the shape
`detect_table_structure` produces for the 2022 tables). -/
def sampleStruct : TableStructure :=
  ⟨[("C-L", 2, 2), ("C-M", 3, 3), ("C-H", 4, 4), ("I-L", 5, 5), ("I-M", 6, 6),
    ("I-H", 7, 7), ("A-L", 8, 8), ("A-M", 9, 9), ("A-H", 10, 12)],
   some 13, some 14⟩

/-- A withdrawn data row with an `X` mark. -/
def c1row : List (Option String) :=
  [some "AC-1", some "Policy and Procedures", some "Withdrawn: Incorporated into AC-2.",
   some "X", none, none, none, none, none, none, none, none]

/-- C1 witness: `claim_C1` applied to a concrete withdrawn row. -/
theorem claim_C1_witness :
    c1row.any cellWithdrawn = true ∧
    (parse_control_row c1row sampleStruct).map ControlRecord.selected = some false := by
  refine ⟨by decide, ?_⟩
  cases hp : parse_control_row c1row sampleStruct with
  | none => exact absurd hp (by decide)
  | some r =>
    have hc := claim_C1 c1row sampleStruct r hp (by decide)
    simp [hc]

/-- A withdrawn row of the organization-wide `PM` family with a
conflicting `X` mark: the source forces `selected = false` at line 183
after the `PM` override of line 176, so the claim "`PM` rows are always
`selected = True` unconditionally" fails here. -/
def c2cexRow : List (Option String) :=
  [some "PM-1", some "Information Security Program Plan", some "Withdrawn",
   some "X", none, none, none, none, none, none, none, none]

/-- C2 counterexample: a parsed row whose identifier is in the `PM`
family but whose record has `selected = false` (the withdrawn override
runs after the family override). -/
theorem claim_C2_counterexample :
    (parse_control_row c2cexRow sampleStruct).map
      (fun r => (familyOf r.control_id, r.selected)) = some ("PM", false) := by
  decide

/-- C2 (amended): for every parsed row, a `PM`-family identifier yields
`selected = true` provided the withdrawn marker is absent, and a
`PT`-family identifier yields `selected = false` unconditionally — in
both cases regardless of the row's column marks. -/
theorem claim_C2 (row : List (Option String)) (s : TableStructure)
    (r : ControlRecord) (h : parse_control_row row s = some r) :
    (familyOf r.control_id = "PM" → row.any cellWithdrawn = false →
      r.selected = true) ∧
    (familyOf r.control_id = "PT" → r.selected = false) := by
  rw [parse_control_row, parseCore] at h
  split at h
  · simp at h
  · split at h
    · simp at h
    · split at h
      · simp at h
      · rw [Option.some.injEq] at h
        subst h
        constructor
        · intro hpm hw
          simp only at hpm
          simp [hw, hpm]
        · intro hpt
          simp only at hpt
          simp [hpt]

/-- A clean `PM` row with no marks and no withdrawn marker. -/
def c2pmRow : List (Option String) :=
  [some "PM-1", some "Information Security Program Plan", none,
   none, none, none, none, none, none, none, none, none]

/-- A `PT` row with a conflicting `X` mark. -/
def c2ptRow : List (Option String) :=
  [some "PT-1", some "Policy and Procedures", none,
   some "X", none, none, none, none, none, none, none, none]

/-- C2 witness: `claim_C2` applied to a concrete `PM` row (selected) and
a concrete marked `PT` row (not selected). -/
theorem claim_C2_witness :
    (parse_control_row c2pmRow sampleStruct).map ControlRecord.selected = some true ∧
    (parse_control_row c2ptRow sampleStruct).map ControlRecord.selected = some false := by
  constructor
  · cases hp : parse_control_row c2pmRow sampleStruct with
    | none => exact absurd hp (by decide)
    | some r =>
      have hfam : familyOf r.control_id = "PM" := by
        have h2 : (parse_control_row c2pmRow sampleStruct).map
            (fun x => familyOf x.control_id) = some "PM" := by decide
        rw [hp] at h2
        simpa using h2
      have hc := (claim_C2 c2pmRow sampleStruct r hp).1 hfam (by decide)
      simp [hc]
  · cases hp : parse_control_row c2ptRow sampleStruct with
    | none => exact absurd hp (by decide)
    | some r =>
      have hfam : familyOf r.control_id = "PT" := by
        have h2 : (parse_control_row c2ptRow sampleStruct).map
            (fun x => familyOf x.control_id) = some "PT" := by decide
        rw [hp] at h2
        simpa using h2
      have hc := (claim_C2 c2ptRow sampleStruct r hp).2 hfam
      simp [hc]

/-- C9: the withdrawn marker's influence is confined to the `selected`
boolean (forced `false`) and the `withdrawn` flag: parsing the same row
with the marker flag off (`parseCore row s false`, the record "the same
row without the marker would produce") yields the identical identifier,
title, nine selection booleans, special text, parameter value and
justification.  `is_withdrawn` feeds only lines 182 and 199 of the
source. -/
theorem claim_C9 (row : List (Option String)) (s : TableStructure)
    (r : ControlRecord) (h : parse_control_row row s = some r)
    (hw : row.any cellWithdrawn = true) :
    (parseCore row s false).map ControlRecord.control_id = some r.control_id ∧
    (parseCore row s false).map ControlRecord.title = some r.title ∧
    (parseCore row s false).map ControlRecord.selections = some r.selections ∧
    (parseCore row s false).map ControlRecord.special_text = some r.special_text ∧
    (parseCore row s false).map ControlRecord.parameter_value = some r.parameter_value ∧
    (parseCore row s false).map ControlRecord.justification = some r.justification ∧
    (parseCore row s false).map ControlRecord.withdrawn = some false ∧
    r.selected = false ∧ r.withdrawn = true := by
  rw [parse_control_row, hw] at h
  rw [parseCore] at h
  split at h
  · simp at h
  · split at h
    · simp at h
    · split at h
      · simp at h
      · rw [Option.some.injEq] at h
        subst h
        rename_i hlen x1 cid cidx heq1 x2 sel heq2
        have hf : parseCore row s false = some
            { control_id := cid
              title := findTitle row cidx
              selected :=
                if familyOf cid = "PM" then true
                else if familyOf cid = "PT" then false
                else anySelected sel
              selections := sel
              special_text :=
                if familyOf cid = "PM" then some pmSpecialText
                else if familyOf cid = "PT" then some ptSpecialText
                else none
              parameter_value := extractFreeText s.param_value_col row
              justification := extractFreeText s.justification_col row
              withdrawn := false } := by
          rw [parseCore, if_neg hlen, heq1, heq2]
          rfl
        rw [hf]
        exact ⟨rfl, rfl, rfl, rfl, rfl, rfl, rfl, rfl, rfl⟩

/-- A withdrawn row with two marks, for the C9 witness. -/
def c9row : List (Option String) :=
  [some "SC-18", some "Mobile Code", some "Withdrawn soon", some "X", none, none,
   some "+", none, none, none, none, none]

/-- C9 witness: `claim_C9` applied to a concrete withdrawn marked row. -/
theorem claim_C9_witness :
    c9row.any cellWithdrawn = true ∧
    (parse_control_row c9row sampleStruct).map ControlRecord.selected = some false ∧
    (parseCore c9row sampleStruct false).map ControlRecord.withdrawn = some false := by
  refine ⟨by decide, ?_⟩
  cases hp : parse_control_row c9row sampleStruct with
  | none => exact absurd hp (by decide)
  | some r =>
    have hc := claim_C9 c9row sampleStruct r hp (by decide)
    exact ⟨by simp [hc.2.2.2.2.2.2.2.1], hc.2.2.2.2.2.2.1⟩

/-- C10: when a detected free-text column index is 0, the corresponding
field of every returned record is `none` regardless of the cell content,
because lines 152 and 160 test the index for Python truthiness (`0` is
falsy) rather than for presence. -/
theorem claim_C10 (row : List (Option String)) (s : TableStructure)
    (r : ControlRecord) (h : parse_control_row row s = some r) :
    (s.justification_col = some 0 → r.justification = none) ∧
    (s.param_value_col = some 0 → r.parameter_value = none) := by
  rw [parse_control_row, parseCore] at h
  split at h
  · simp at h
  · split at h
    · simp at h
    · split at h
      · simp at h
      · rw [Option.some.injEq] at h
        subst h
        constructor
        · intro hj
          simp [extractFreeText, hj]
        · intro hp
          simp [extractFreeText, hp]

/-- A row whose cell 0 is non-empty (the identifier itself), so without
the truthiness bug the justification/parameter fields would be that
text. -/
def c10row : List (Option String) :=
  [some "AC-1", some "Policy and Procedures", none, none, none, none, none, none,
   none, none, none, none]

/-- A structure whose free-text columns were both detected at index 0. -/
def c10struct : TableStructure := ⟨[], some 0, some 0⟩

/-- C10 witness: `claim_C10` applied to a concrete row and structure with
both free-text columns at index 0. -/
theorem claim_C10_witness :
    (parse_control_row c10row c10struct).map ControlRecord.justification = some none ∧
    (parse_control_row c10row c10struct).map ControlRecord.parameter_value = some none := by
  cases hp : parse_control_row c10row c10struct with
  | none => exact absurd hp (by decide)
  | some r =>
    have hc := claim_C10 c10row c10struct r hp
    exact ⟨by simp [hc.1 rfl], by simp [hc.2 rfl]⟩

/-!
## Claim about IdentifierMatcher (C4)
-/

/-- C4 counterexample: `"ABC-1"` is a valid identifier under the spec
grammar (three family letters), yet the matcher used by
`parse_control_row` (regex letters count `{2}`) rejects it, so the
claimed round trip fails for letters of length 3. -/
theorem claim_C4_counterexample :
    specValidId "ABC-1" = true ∧ cnssiIdMatch "ABC-1" = false := by
  constructor <;> decide

/-- C4 (amended): the matcher accepts a string exactly when it is valid
under the claimed grammar *and* its family prefix has exactly two
letters; in particular every such identifier round-trips and every
malformed near-match (anything the grammar rejects) returns no match. -/
theorem claim_C4 (s : String) :
    cnssiIdMatch s =
      (specValidId s && ((s.data.takeWhile Char.isUpper).length == 2)) := by
  rw [cnssiIdMatch, specValidId]
  cases hb : idTail (s.data.dropWhile Char.isUpper)
  · simp
  · simp only [Bool.and_true]
    by_cases h2 : (s.data.takeWhile Char.isUpper).length = 2
    · simp [h2]
    · simp [h2]

/-!
## Claim about TableStructureDetector (C5)
-/

/-- A 3-row header whose third row has nine `L` tokens (all of them
`L/M/H` tokens at strictly increasing columns, as the claim reads), with
the `C`/`I`/`A` anchors in the second row. -/
def c5cexHdr : List (List (Option String)) :=
  [[some "ID", some "Title"],
   [none, none, some "C", none, none, some "I", none, none, some "A"],
   [none, none, some "L", some "L", some "L", some "L", some "L", some "L",
    some "L", some "L", some "L"]]

/-- C5 counterexample: nine `L/M/H` tokens at strictly increasing
columns, yet only three ranges are produced, because the dict keys
`C-L`, `I-L`, `A-L` are each overwritten twice — the claimed "exactly
nine column ranges" needs the tokens to follow the repeating `L,M,H`
pattern. -/
theorem claim_C5_counterexample :
    (lmhPositions (c5cexHdr.getD 2 [])).length = 9 ∧
    dictGet (ciaPositions (c5cexHdr.getD 1 [])) "C" ≠ none ∧
    (detect_table_structure c5cexHdr).ranges.length = 3 := by
  refine ⟨by decide, by decide, by decide⟩

/-- C5 (amended): on a header block whose second row carries the three
`C`/`I`/`A` anchors and whose third row carries nine `L`/`M`/`H` tokens
in the repeating order `L,M,H` at strictly increasing columns, the
detector produces exactly nine ranges, keyed `C-L … A-H` in order, each
of width at least 1, mutually non-overlapping, each ending one column
before the next token, with the last receiving a fixed width of 2. -/
theorem claim_C5 (r0 r1 r2 : List (Option String))
    (rest : List (List (Option String)))
    (c1 c2 c3 c4 c5 c6 c7 c8 c9 : Nat)
    (hCIA : dictGet (ciaPositions r1) "C" ≠ none ∧
      dictGet (ciaPositions r1) "I" ≠ none ∧ dictGet (ciaPositions r1) "A" ≠ none)
    (hlmh : lmhPositions r2 = [(c1, "L"), (c2, "M"), (c3, "H"), (c4, "L"), (c5, "M"), (c6, "H"), (c7, "L"), (c8, "M"), (c9, "H")])
    (hc : c1 < c2 ∧ c2 < c3 ∧ c3 < c4 ∧ c4 < c5 ∧ c5 < c6 ∧ c6 < c7 ∧ c7 < c8 ∧ c8 < c9) :
    (detect_table_structure (r0 :: r1 :: r2 :: rest)).ranges =
      [("C-L", c1, c2 - 1),
       ("C-M", c2, c3 - 1),
       ("C-H", c3, c4 - 1),
       ("I-L", c4, c5 - 1),
       ("I-M", c5, c6 - 1),
       ("I-H", c6, c7 - 1),
       ("A-L", c7, c8 - 1),
       ("A-M", c8, c9 - 1),
       ("A-H", c9, c9 + 2)] ∧
    (detect_table_structure (r0 :: r1 :: r2 :: rest)).ranges.length = 9 ∧
    (∀ p ∈ (detect_table_structure (r0 :: r1 :: r2 :: rest)).ranges,
      p.2.1 ≤ p.2.2) ∧
    (detect_table_structure (r0 :: r1 :: r2 :: rest)).ranges.Pairwise
      (fun p q => p.2.2 < q.2.1) := by
  obtain ⟨h12, h23, h34, h45, h56, h67, h78, h89⟩ := hc
  have hd : (detect_table_structure (r0 :: r1 :: r2 :: rest)).ranges =
      assignRanges (lmhPositions r2) (lmhPositions r2) 0 0 [] := by
    rw [detect_table_structure]
    simp
  rw [hlmh] at hd
  have n21 : ¬ c2 < c1 := by omega
  have n31 : ¬ c3 < c1 := by omega
  have n32 : ¬ c3 < c2 := by omega
  have n41 : ¬ c4 < c1 := by omega
  have n42 : ¬ c4 < c2 := by omega
  have n43 : ¬ c4 < c3 := by omega
  have n51 : ¬ c5 < c1 := by omega
  have n52 : ¬ c5 < c2 := by omega
  have n53 : ¬ c5 < c3 := by omega
  have n54 : ¬ c5 < c4 := by omega
  have n61 : ¬ c6 < c1 := by omega
  have n62 : ¬ c6 < c2 := by omega
  have n63 : ¬ c6 < c3 := by omega
  have n64 : ¬ c6 < c4 := by omega
  have n65 : ¬ c6 < c5 := by omega
  have n71 : ¬ c7 < c1 := by omega
  have n72 : ¬ c7 < c2 := by omega
  have n73 : ¬ c7 < c3 := by omega
  have n74 : ¬ c7 < c4 := by omega
  have n75 : ¬ c7 < c5 := by omega
  have n76 : ¬ c7 < c6 := by omega
  have n81 : ¬ c8 < c1 := by omega
  have n82 : ¬ c8 < c2 := by omega
  have n83 : ¬ c8 < c3 := by omega
  have n84 : ¬ c8 < c4 := by omega
  have n85 : ¬ c8 < c5 := by omega
  have n86 : ¬ c8 < c6 := by omega
  have n87 : ¬ c8 < c7 := by omega
  have n91 : ¬ c9 < c1 := by omega
  have n92 : ¬ c9 < c2 := by omega
  have n93 : ¬ c9 < c3 := by omega
  have n94 : ¬ c9 < c4 := by omega
  have n95 : ¬ c9 < c5 := by omega
  have n96 : ¬ c9 < c6 := by omega
  have n97 : ¬ c9 < c7 := by omega
  have n98 : ¬ c9 < c8 := by omega
  have e1 : nextEnd [(c1, "L"), (c2, "M"), (c3, "H"), (c4, "L"), (c5, "M"), (c6, "H"), (c7, "L"), (c8, "M"), (c9, "H")] c1 = c2 - 1 := by
    simp [nextEnd, List.find?, h12]
  have e2 : nextEnd [(c1, "L"), (c2, "M"), (c3, "H"), (c4, "L"), (c5, "M"), (c6, "H"), (c7, "L"), (c8, "M"), (c9, "H")] c2 = c3 - 1 := by
    simp [nextEnd, List.find?, h23, n21]
  have e3 : nextEnd [(c1, "L"), (c2, "M"), (c3, "H"), (c4, "L"), (c5, "M"), (c6, "H"), (c7, "L"), (c8, "M"), (c9, "H")] c3 = c4 - 1 := by
    simp [nextEnd, List.find?, h34, n31, n32]
  have e4 : nextEnd [(c1, "L"), (c2, "M"), (c3, "H"), (c4, "L"), (c5, "M"), (c6, "H"), (c7, "L"), (c8, "M"), (c9, "H")] c4 = c5 - 1 := by
    simp [nextEnd, List.find?, h45, n41, n42, n43]
  have e5 : nextEnd [(c1, "L"), (c2, "M"), (c3, "H"), (c4, "L"), (c5, "M"), (c6, "H"), (c7, "L"), (c8, "M"), (c9, "H")] c5 = c6 - 1 := by
    simp [nextEnd, List.find?, h56, n51, n52, n53, n54]
  have e6 : nextEnd [(c1, "L"), (c2, "M"), (c3, "H"), (c4, "L"), (c5, "M"), (c6, "H"), (c7, "L"), (c8, "M"), (c9, "H")] c6 = c7 - 1 := by
    simp [nextEnd, List.find?, h67, n61, n62, n63, n64, n65]
  have e7 : nextEnd [(c1, "L"), (c2, "M"), (c3, "H"), (c4, "L"), (c5, "M"), (c6, "H"), (c7, "L"), (c8, "M"), (c9, "H")] c7 = c8 - 1 := by
    simp [nextEnd, List.find?, h78, n71, n72, n73, n74, n75, n76]
  have e8 : nextEnd [(c1, "L"), (c2, "M"), (c3, "H"), (c4, "L"), (c5, "M"), (c6, "H"), (c7, "L"), (c8, "M"), (c9, "H")] c8 = c9 - 1 := by
    simp [nextEnd, List.find?, h89, n81, n82, n83, n84, n85, n86, n87]
  have e9 : nextEnd [(c1, "L"), (c2, "M"), (c3, "H"), (c4, "L"), (c5, "M"), (c6, "H"), (c7, "L"), (c8, "M"), (c9, "H")] c9 = c9 + 2 := by
    simp [nextEnd, List.find?, n91, n92, n93, n94, n95, n96, n97, n98]
  have hr : (detect_table_structure (r0 :: r1 :: r2 :: rest)).ranges =
      [("C-L", c1, c2 - 1),
       ("C-M", c2, c3 - 1),
       ("C-H", c3, c4 - 1),
       ("I-L", c4, c5 - 1),
       ("I-M", c5, c6 - 1),
       ("I-H", c6, c7 - 1),
       ("A-L", c7, c8 - 1),
       ("A-M", c8, c9 - 1),
       ("A-H", c9, c9 + 2)] := by
    rw [hd]
    simp [assignRanges, dictSet, e1, e2, e3, e4, e5, e6, e7, e8, e9]
  refine ⟨hr, ?_, ?_, ?_⟩
  · rw [hr]
    rfl
  · rw [hr]
    intro p hp
    simp at hp
    rcases hp with hp|hp|hp|hp|hp|hp|hp|hp|hp <;> subst hp <;> simp <;> omega
  · rw [hr]
    simp [List.pairwise_cons]
    refine ⟨?_, ?_, ?_, ?_, ?_, ?_, ?_, ?_⟩ <;> omega

/-- The three header rows of the C5 witness. -/
def c5r0 : List (Option String) := [some "ID", some "Title"]

/-- Second header row: the `C`/`I`/`A` anchors. -/
def c5r1 : List (Option String) :=
  [none, none, some "C", none, none, some "I", none, none, some "A"]

/-- Third header row: `L M H L M H L M H` at columns 2-10. -/
def c5r2 : List (Option String) :=
  [none, none, some "L", some "M", some "H", some "L", some "M", some "H",
   some "L", some "M", some "H"]

/-- C5 witness: `claim_C5` applied to the concrete synthetic header. -/
theorem claim_C5_witness :
    (detect_table_structure [c5r0, c5r1, c5r2]).ranges =
      [("C-L", 2, 2), ("C-M", 3, 3), ("C-H", 4, 4), ("I-L", 5, 5), ("I-M", 6, 6),
       ("I-H", 7, 7), ("A-L", 8, 8), ("A-M", 9, 9), ("A-H", 10, 12)] := by
  have h := claim_C5 c5r0 c5r1 c5r2 [] 2 3 4 5 6 7 8 9 10
    ⟨by decide, by decide, by decide⟩ (by decide) (by decide)
  exact h.1

/-!
## Claim about the RecordStore merge (C3)
-/

/-- A list equal to its own strip is also equal to its one-sided
whitespace drops, on both ends. -/
theorem pyStripList_parts {l : List Char} (h : pyStripList l = l) :
    l.dropWhile isSpaceChar = l ∧
    l.reverse.dropWhile isSpaceChar = l.reverse := by
  have hd : l.dropWhile isSpaceChar <:+ l := List.dropWhile_suffix _
  have hlen : (pyStripList l).length ≤ (l.dropWhile isSpaceChar).length := by
    rw [pyStripList]
    have := ((l.dropWhile isSpaceChar).reverse.dropWhile_suffix isSpaceChar).length_le
    simpa using this
  have hx : l.dropWhile isSpaceChar = l := by
    apply hd.eq_of_length
    have := hd.length_le
    rw [h] at hlen
    omega
  refine ⟨hx, ?_⟩
  have h2 : pyStripList l = (l.reverse.dropWhile isSpaceChar).reverse := by
    rw [pyStripList, hx]
  rw [h] at h2
  have := congrArg List.reverse h2
  simpa using this.symm

/-- Dropping leading whitespace is the identity on any extension of a
non-empty list that keeps nothing to drop. -/
theorem dropWhile_append_self {l : List Char}
    (h : l.dropWhile isSpaceChar = l) (hne : l ≠ []) (t : List Char) :
    (l ++ t).dropWhile isSpaceChar = l ++ t := by
  cases l with
  | nil => exact absurd rfl hne
  | cons c cs =>
    have hc : isSpaceChar c = false := by
      by_contra hcc
      rw [Bool.not_eq_false] at hcc
      rw [List.dropWhile_cons, if_pos hcc] at h
      have := congrArg List.length h
      have hle := (List.dropWhile_suffix (l := cs) isSpaceChar).length_le
      simp at this
      omega
    rw [List.cons_append, List.dropWhile_cons, hc]
    simp

/-- Stripping a space-join of two stripped non-empty fragments changes
nothing. -/
theorem pyStripList_join {a b : List Char}
    (ha : pyStripList a = a) (hb : pyStripList b = b)
    (hna : a ≠ []) (hnb : b ≠ []) :
    pyStripList (a ++ ' ' :: b) = a ++ ' ' :: b := by
  obtain ⟨ha1, _⟩ := pyStripList_parts ha
  obtain ⟨_, hb2⟩ := pyStripList_parts hb
  rw [pyStripList]
  rw [dropWhile_append_self ha1 hna (' ' :: b)]
  have hrev : (a ++ ' ' :: b).reverse = b.reverse ++ ' ' :: a.reverse := by
    simp
  rw [hrev]
  have hbr : b.reverse ≠ [] := by simpa using hnb
  rw [dropWhile_append_self hb2 hbr (' ' :: a.reverse)]
  rw [← hrev]
  simp

/-- C3: upserting under an existing identifier appends each non-empty
incoming text field, space-joined, to the existing non-empty text of
that field (first conjunct, for strip-normalised fields), or sets it
directly when the existing field was empty (second conjunct); in
particular merging the fragments `"A"` then `"B"` sequentially yields
the same store as merging the single fragment `"A B"` (third
conjunct). -/
theorem claim_C3 :
    (∀ ex inc : String, pyStrip ex = ex → ex ≠ "" → pyStrip inc = inc →
      inc ≠ "" → mergeField ex inc = ex ++ " " ++ inc) ∧
    (∀ inc : String, pyStrip inc ≠ "" → mergeField "" inc = inc) ∧
    storeUpsert (storeUpsert [] "AC-1" ⟨"A", ""⟩) "AC-1" ⟨"B", ""⟩ =
      storeUpsert [] "AC-1" ⟨"A B", ""⟩ := by
  refine ⟨?_, ?_, by decide⟩
  · intro ex inc hsx hnex hsi hninc
    have hx : pyStripList ex.data = ex.data := congrArg String.data hsx
    have hi : pyStripList inc.data = inc.data := congrArg String.data hsi
    have hnx : ex.data ≠ [] := fun hh => hnex (String.ext hh)
    have hni : inc.data ≠ [] := fun hh => hninc (String.ext hh)
    have hdata : (ex ++ " " ++ inc).data = ex.data ++ ' ' :: inc.data := by
      simp [String.data_append]
    have hstrip : pyStrip (ex ++ " " ++ inc) = ex ++ " " ++ inc := by
      apply String.ext
      show pyStripList (ex ++ " " ++ inc).data = (ex ++ " " ++ inc).data
      rw [hdata]
      exact pyStripList_join hx hi hnx hni
    rw [mergeField]
    rw [if_pos, if_pos hnex]
    · exact hstrip
    · rw [hsi]
      simp [hninc]
  · intro inc hi
    have hninc : inc ≠ "" := by
      intro hh
      rw [hh] at hi
      exact hi rfl
    rw [mergeField, if_pos, if_neg]
    · simp
    · simp [hninc, hi]

/-- C3 witness: `claim_C3` applied to the concrete fragments `"A"` and
`"B"`. -/
theorem claim_C3_witness :
    pyStrip "A" = "A" ∧ ("A" : String) ≠ "" ∧
    pyStrip "B" = "B" ∧ ("B" : String) ≠ "" ∧
    mergeField "A" "B" = "A B" ∧ mergeField "" "A B" = "A B" := by
  refine ⟨by decide, by decide, by decide, by decide, ?_, ?_⟩
  · have h := claim_C3.1 "A" "B" (by decide) (by decide) (by decide) (by decide)
    simpa using h
  · exact claim_C3.2.1 "A B" (by decide)

/-!
## Claim about the natural sort (C8)
-/

/-- Trichotomy of the code-point order on character lists. -/
theorem listLtChar_trichotomy :
    ∀ x y : List Char, listLtChar x y = true ∨ listLtChar y x = true ∨ x = y := by
  intro x
  induction x with
  | nil =>
    intro y
    cases y with
    | nil => right; right; rfl
    | cons b tb => left; rfl
  | cons a ta ih =>
    intro y
    cases y with
    | nil => right; left; rfl
    | cons b tb =>
      by_cases hab : a.toNat < b.toNat
      · left
        simp [listLtChar, hab]
      · by_cases hba : b.toNat < a.toNat
        · right; left
          simp [listLtChar, hba]
        · have heq : a = b := by
            apply Char.ext
            apply UInt32.toNat.inj
            unfold Char.toNat at hab hba
            omega
          subst heq
          rcases ih tb with h | h | h
          · left
            simp [listLtChar, h]
          · right; left
            simp [listLtChar, h]
          · right; right
            rw [h]

/-- Transitivity of the code-point order on character lists. -/
theorem listLtChar_trans :
    ∀ x y z : List Char, listLtChar x y = true → listLtChar y z = true →
      listLtChar x z = true := by
  intro x
  induction x with
  | nil =>
    intro y z hxy hyz
    cases z with
    | nil =>
      cases y with
      | nil => exact hxy
      | cons b tb => simp [listLtChar] at hyz
    | cons c tc => rfl
  | cons a ta ih =>
    intro y z hxy hyz
    cases y with
    | nil => simp [listLtChar] at hxy
    | cons b tb =>
      cases z with
      | nil => simp [listLtChar] at hyz
      | cons c tc =>
        rw [listLtChar] at hxy hyz ⊢
        by_cases hab : a.toNat < b.toNat
        · by_cases hbc : b.toNat < c.toNat
          · rw [if_pos (show a.toNat < c.toNat by omega)]
          · by_cases hcb : c.toNat < b.toNat
            · rw [if_neg hbc, if_pos hcb] at hyz
              exact absurd hyz (by simp)
            · rw [if_pos (show a.toNat < c.toNat by omega)]
        · by_cases hba : b.toNat < a.toNat
          · rw [if_neg hab, if_pos hba] at hxy
            exact absurd hxy (by simp)
          · rw [if_neg hab, if_neg hba] at hxy
            by_cases hbc : b.toNat < c.toNat
            · rw [if_pos (show a.toNat < c.toNat by omega)]
            · by_cases hcb : c.toNat < b.toNat
              · rw [if_neg hbc, if_pos hcb] at hyz
                exact absurd hyz (by simp)
              · rw [if_neg hbc, if_neg hcb] at hyz
                rw [if_neg (show ¬a.toNat < c.toNat by omega),
                  if_neg (show ¬c.toNat < a.toNat by omega)]
                exact ih tb tc hxy hyz

/-- The sort-key comparison is transitive. -/
theorem keyLe_trans (k1 k2 k3 : String × Nat × Nat) (h1 : keyLe k1 k2 = true)
    (h2 : keyLe k2 k3 = true) : keyLe k1 k3 = true := by
  obtain ⟨f1, b1, e1⟩ := k1
  obtain ⟨f2, b2, e2⟩ := k2
  obtain ⟨f3, b3, e3⟩ := k3
  simp [keyLe] at h1 h2 ⊢
  rcases h1 with h1 | ⟨hf12, h1⟩
  · rcases h2 with h2 | ⟨hf23, h2⟩
    · exact Or.inl (listLtChar_trans _ _ _ h1 h2)
    · subst hf23
      exact Or.inl h1
  · subst hf12
    rcases h2 with h2 | ⟨hf23, h2⟩
    · exact Or.inl h2
    · subst hf23
      right
      refine ⟨rfl, ?_⟩
      omega

/-- The sort-key comparison is total. -/
theorem keyLe_total (k1 k2 : String × Nat × Nat) :
    (keyLe k1 k2 || keyLe k2 k1) = true := by
  obtain ⟨f1, b1, e1⟩ := k1
  obtain ⟨f2, b2, e2⟩ := k2
  rcases listLtChar_trichotomy f1.data f2.data with h | h | h
  · simp [keyLe, h]
  · simp [keyLe, h]
  · have heq : f1 = f2 := String.ext h
    subst heq
    simp [keyLe]
    omega

/-- C8: sorting any list of records yields a permutation of it ordered
by family (code-point order), then base number, then enhancement number
(0 for base controls, so base controls come first); in particular
`AC-1, AC-2, AC-10, AC-1(1), AC-1(10)` is emitted as
`AC-1, AC-1(1), AC-1(10), AC-2, AC-10`. -/
theorem claim_C8 :
    (∀ l : List NistControl,
      (sort_controls l).Perm l ∧
      (sort_controls l).Pairwise (fun a b => keyLe (sortKey a) (sortKey b) = true)) ∧
    (sort_controls [⟨"AC-1"⟩, ⟨"AC-2"⟩, ⟨"AC-10"⟩, ⟨"AC-1(1)"⟩, ⟨"AC-1(10)"⟩]).map
      NistControl.id = ["AC-1", "AC-1(1)", "AC-1(10)", "AC-2", "AC-10"] := by
  constructor
  · intro l
    refine ⟨List.perm_insertionSort _ l, ?_⟩
    haveI htot : IsTotal NistControl (fun a b => keyLe (sortKey a) (sortKey b) = true) :=
      ⟨fun a b => by
        have := keyLe_total (sortKey a) (sortKey b)
        rcases Bool.or_eq_true_iff.mp this with h | h
        · exact Or.inl h
        · exact Or.inr h⟩
    haveI htr : IsTrans NistControl (fun a b => keyLe (sortKey a) (sortKey b) = true) :=
      ⟨fun a b c hab hbc => keyLe_trans _ _ _ hab hbc⟩
    exact List.sorted_insertionSort _ l
  · decide

/-!
## Claims about the free-text line pipeline (C6, C7)
-/

/-- A successful case-insensitive word match consumes a suffix. -/
theorem stripCI_suffix :
    ∀ (ts l r : List Char), stripCI ts l = some r → r <:+ l := by
  intro ts
  induction ts with
  | nil =>
    intro l r h
    rw [stripCI] at h
    rw [Option.some.injEq] at h
    subst h
    exact List.suffix_rfl
  | cons t ts ih =>
    intro l r h
    cases l with
    | nil => simp [stripCI] at h
    | cons c cs =>
      rw [stripCI] at h
      split at h
      · exact (ih cs r h).trans (List.suffix_cons c cs)
      · simp at h

/-- Inversion of one step of the case-insensitive word match. -/
theorem stripCI_cons {t : Char} {ts l r : List Char}
    (h : stripCI (t :: ts) l = some r) :
    ∃ c cs, l = c :: cs ∧ c.toLower = t ∧ stripCI ts cs = some r := by
  cases l with
  | nil => simp [stripCI] at h
  | cons c cs =>
    rw [stripCI] at h
    split at h
    · exact ⟨c, cs, rfl, by assumption, h⟩
    · simp at h

/-- A line starting with `label + ":"` contains a colon. -/
theorem colon_mem_of_isPrefixOf {s : String} {l : List Char}
    (h : (s ++ ":").data.isPrefixOf l = true) : ':' ∈ l := by
  rw [List.isPrefixOf_iff_prefix] at h
  obtain ⟨t, ht⟩ := h
  subst ht
  have hm : ':' ∈ (s ++ ":").data := by
    rw [String.data_append]
    simp
  exact List.mem_append_left _ hm

/-- A line without a colon matches no attribute label. -/
theorem extractAttribute_eq_none {line : String} (h : ':' ∉ line.data) :
    extractAttribute line = none := by
  rw [extractAttribute]
  apply List.findSome?_eq_none_iff.mpr
  intro attr _
  split
  · exact absurd (colon_mem_of_isPrefixOf (by assumption)) h
  · rfl

/-- A line without a colon is no enhancement header. -/
theorem enhMatch_eq_none {line : String} (h : ':' ∉ line.data) :
    enhMatch line = none := by
  rw [enhMatch]
  split
  · rfl
  · rename_i r1 hs1
    split
    · rfl
    · rename_i r3 hs3
      split
      · rename_i r5 hm
        exfalso
        apply h
        have h1 : r1 <:+ line.data := stripCI_suffix _ _ _ hs1
        have h2 : r1.dropWhile isSpaceChar <:+ r1 := List.dropWhile_suffix _
        have h3 : r3 <:+ r1.dropWhile isSpaceChar := stripCI_suffix _ _ _ hs3
        have h4 : r3.dropWhile isSpaceChar <:+ r3 := List.dropWhile_suffix _
        have hc : ':' ∈ r3.dropWhile isSpaceChar := by
          rw [hm]
          exact List.mem_cons_self _ _
        exact (((h4.trans h3).trans h2).trans h1).subset hc
      · rfl

/-- An enhancement-header line never matches the base-control regex: its
third character lowers to `n`, where the regex demands `-`. -/
theorem enhMatch_imp_bcMatch_none {line : String} {g : String}
    (h : enhMatch line = some g) : bcMatch line.data = none := by
  rw [enhMatch] at h
  cases hs : stripCI "control".data line.data with
  | none => rw [hs] at h; simp at h
  | some r1 =>
    obtain ⟨c0, cs0, he0, ht0, hrest0⟩ := stripCI_cons hs
    obtain ⟨c1, cs1, he1, ht1, hrest1⟩ := stripCI_cons hrest0
    obtain ⟨c2, cs2, he2, ht2, _⟩ := stripCI_cons hrest1
    have hl : line.data = c0 :: c1 :: c2 :: cs2 := by
      rw [he0, he1, he2]
    have hne : c2 ≠ '-' := by
      intro hh
      rw [hh] at ht2
      exact absurd ht2 (by decide)
    rw [hl]
    cases cs2 with
    | nil => rfl
    | cons d1 rest2 => simp [bcMatch, hne]

/-- Looking up the key just set. -/
theorem dictGet_dictSet_self {α : Type} (d : List (String × α)) (k : String)
    (v : α) : dictGet (dictSet d k v) k = some v := by
  induction d with
  | nil => simp [dictGet, dictSet, List.find?]
  | cons p rest ih =>
    obtain ⟨k', v'⟩ := p
    rw [dictSet]
    by_cases hk : k' = k
    · rw [if_pos hk]
      simp [dictGet, List.find?]
    · rw [if_neg hk]
      rw [dictGet, List.find?_cons_of_neg]
      · exact ih
      · simp [hk]

/-- Setting one key leaves every other key's lookup unchanged. -/
theorem dictGet_dictSet_ne {α : Type} (d : List (String × α)) (k k' : String)
    (v : α) (h : k' ≠ k) : dictGet (dictSet d k v) k' = dictGet d k' := by
  induction d with
  | nil =>
    simp [dictGet, dictSet, List.find?, Ne.symm h]
  | cons p rest ih =>
    obtain ⟨k0, v0⟩ := p
    rw [dictSet]
    by_cases hk : k0 = k
    · rw [if_pos hk]
      subst hk
      rw [dictGet, dictGet, List.find?_cons_of_neg, List.find?_cons_of_neg]
      · simp [Ne.symm h]
      · simp [Ne.symm h]
    · rw [if_neg hk]
      by_cases hk0 : k0 = k'
      · subst hk0
        rw [dictGet, dictGet, List.find?_cons_of_pos, List.find?_cons_of_pos]
        · simp
        · simp
      · rw [dictGet, dictGet, List.find?_cons_of_neg, List.find?_cons_of_neg]
        · exact ih
        · simp [hk0]
        · simp [hk0]

/-- A state in mid-record, mid-attribute, for the C6 theorems. -/
def c6state : ExtractorState :=
  ⟨[("AC-1", ⟨"Policy", [("Justification to Select", "J")], 1⟩)],
   some "AC-1", some "AC-1", some "Justification to Select"⟩

/-- C6 counterexample: with a current record and current attribute set,
the non-empty line `"note: extra"` is not an identifier line, not an
enhancement header and not a known attribute label, yet nothing is
appended — the state is unchanged, because any line containing `':'`
takes the attribute-label branch (lines 147-158) and falls through when
no label matches, never reaching the continuation branch. -/
theorem claim_C6_counterexample :
    pyStrip "note: extra" ≠ "" ∧
    bcMatch "note: extra".data = none ∧
    enhMatch "note: extra" = none ∧
    extractAttribute "note: extra" = none ∧
    processLine c6state "note: extra" false 2 = c6state := by
  refine ⟨by decide, by decide, by decide, by decide, by decide⟩

/-- C6 (amended): while a current record and a current attribute label
are set, every non-empty line that contains no `':'` and is not a
base-control identifier line has its stripped text appended
(space-joined) to the current attribute's accumulated text.  (Lines
without `':'` can be neither enhancement headers nor attribute labels;
lines with `':'` reach the continuation branch in no case.) -/
theorem claim_C6 (st : ExtractorState) (line : String) (isBold : Bool)
    (page : Nat) (cur a t : String) (r : ClassRecord)
    (hcur : st.current_control = some cur) (hcne : cur ≠ "")
    (hattr : st.current_attribute = some a) (hane : a ≠ "")
    (hrec : dictGet st.controls cur = some r)
    (hold : dictGet r.attributes a = some t)
    (hne : pyStrip line ≠ "")
    (hnc : ':' ∉ line.data)
    (hbc : bcMatch line.data = none) :
    processLine st line isBold page =
      ⟨dictSet st.controls cur
        ⟨r.name, dictSet r.attributes a (t ++ " " ++ pyStrip line), r.page⟩,
       st.current_control, st.current_base_control, st.current_attribute⟩ := by
  have hen : enhMatch line = none := enhMatch_eq_none hnc
  have hea : extractAttribute line = none := extractAttribute_eq_none hnc
  have hcontains : line.data.contains ':' = false := by
    simpa using hnc
  rw [processLine]
  simp only [hbc, hen, hea, hcur, hattr, hrec, hold, hcontains, Option.isSome_none,
    Bool.false_and, Bool.and_false, if_false, Bool.false_or, Bool.or_false,
    Option.isSome_some]
  simp [hcne, hane, hne]

/-- C6 witness: `claim_C6` applied to a concrete continuation line. -/
theorem claim_C6_witness :
    processLine c6state "continues here." false 2 =
      ⟨[("AC-1", ⟨"Policy", [("Justification to Select", "J continues here.")], 1⟩)],
       some "AC-1", some "AC-1", some "Justification to Select"⟩ := by
  have h := claim_C6 c6state "continues here." false 2 "AC-1"
    "Justification to Select" "J"
    ⟨"Policy", [("Justification to Select", "J")], 1⟩
    rfl (by decide) rfl (by decide) (by decide) (by decide)
    (by decide) (by decide) (by decide)
  rw [h]
  decide

/-- An enhancement id is never the base id (it is strictly longer). -/
theorem enhId_ne_base (base n : String) :
    base ++ "(" ++ pyStrip n ++ ")" ≠ base := by
  intro hh
  have hlen := congrArg (fun s : String => s.data.length) hh
  simp [String.data_append] at hlen

/-- The enhancement-insertion fold does not touch keys it never writes. -/
theorem enhInsert_preserve (base : String) (page : Nat) :
    ∀ (nums : List String) (controls : List (String × ClassRecord)) (k : String),
      (∀ n ∈ nums, k ≠ base ++ "(" ++ pyStrip n ++ ")") →
      dictGet (enhInsert base page controls nums) k = dictGet controls k := by
  intro nums
  induction nums with
  | nil => intro controls k _; rfl
  | cons m rest ih =>
    intro controls k hk
    rw [enhInsert, List.foldl_cons]
    rw [← enhInsert]
    rw [ih _ k (fun n hn => hk n (List.mem_cons_of_mem m hn))]
    exact dictGet_dictSet_ne _ _ _ _ (hk m (List.mem_cons_self m rest))

/-- The enhancement-insertion fold preserves the base control's record. -/
theorem enhInsert_base (base : String) (page : Nat) :
    ∀ (nums : List String) (controls : List (String × ClassRecord))
      (bRec : ClassRecord), dictGet controls base = some bRec →
      dictGet (enhInsert base page controls nums) base = some bRec := by
  intro nums
  induction nums with
  | nil => intro controls bRec hb; exact hb
  | cons m rest ih =>
    intro controls bRec hb
    rw [enhInsert, List.foldl_cons, ← enhInsert]
    apply ih
    rw [dictGet_dictSet_ne _ _ _ _ (Ne.symm (enhId_ne_base base m))]
    exact hb

/-- Every listed number ends up with a record seeded from the base
control's name. -/
theorem enhInsert_hit (base : String) (page : Nat) :
    ∀ (nums : List String) (controls : List (String × ClassRecord))
      (bRec : ClassRecord) (n : String), dictGet controls base = some bRec →
      n ∈ nums →
      dictGet (enhInsert base page controls nums)
        (base ++ "(" ++ pyStrip n ++ ")") = some ⟨bRec.name, [], page⟩ := by
  intro nums
  induction nums with
  | nil => intro controls bRec n _ hmem; simp at hmem
  | cons m rest ih =>
    intro controls bRec n hb hmem
    rw [enhInsert, List.foldl_cons, ← enhInsert]
    have hb1 : dictGet
        (dictSet controls (base ++ "(" ++ pyStrip m ++ ")")
          ⟨((dictGet controls base).map (fun p => p.name)).getD "", [], page⟩)
        base = some bRec := by
      rw [dictGet_dictSet_ne _ _ _ _ (Ne.symm (enhId_ne_base base m))]
      exact hb
    rcases List.mem_cons.mp hmem with hnm | hnr
    · subst hnm
      by_cases hdup : ∃ n' ∈ rest,
          base ++ "(" ++ pyStrip n' ++ ")" = base ++ "(" ++ pyStrip n ++ ")"
      · obtain ⟨n', hn', he⟩ := hdup
        have := ih _ bRec n' hb1 hn'
        rw [he] at this
        exact this
      · push_neg at hdup
        rw [enhInsert_preserve base page rest _ _
          (fun n' hn' => fun hh => hdup n' hn' hh.symm)]
        rw [hb]
        exact dictGet_dictSet_self _ _ _
    · exact ih _ bRec n hb1 hnr

/-- C7: every line matching the enhancement-header pattern, processed
while a base control is current and stored, creates (or re-seeds) an
enhancement record `<base>(n)` for each listed number `n`, named after
the base control's title with empty attributes; the cursor moves to the
enhancement of the last listed number and the current attribute label is
reset. -/
theorem claim_C7 (st : ExtractorState) (line : String) (isBold : Bool)
    (page : Nat) (base g : String) (bRec : ClassRecord)
    (hbase : st.current_base_control = some base)
    (hrec : dictGet st.controls base = some bRec)
    (hmatch : enhMatch line = some g) :
    (∀ n ∈ (splitChar ',' g.data).map (fun p => (⟨p⟩ : String)),
      dictGet (processLine st line isBold page).controls
        (base ++ "(" ++ pyStrip n ++ ")") = some ⟨bRec.name, [], page⟩) ∧
    (processLine st line isBold page).current_control =
      some (base ++ "(" ++
        pyStrip (((splitChar ',' g.data).map
          (fun p => (⟨p⟩ : String))).getLastD "") ++ ")") ∧
    (processLine st line isBold page).current_base_control = some base ∧
    (processLine st line isBold page).current_attribute = none := by
  have hbc : bcMatch line.data = none := enhMatch_imp_bcMatch_none hmatch
  have hstep : processLine st line isBold page =
      ⟨enhInsert base page st.controls
        ((splitChar ',' g.data).map (fun p => (⟨p⟩ : String))),
       some (base ++ "(" ++
        pyStrip (((splitChar ',' g.data).map
          (fun p => (⟨p⟩ : String))).getLastD "") ++ ")"),
       st.current_base_control, none⟩ := by
    rw [processLine]
    simp only [hbc, hmatch, hbase, Option.isSome_none, Bool.false_and,
      Option.isSome_some, Bool.false_eq_true, if_false, if_true]
  rw [hstep]
  refine ⟨?_, rfl, hbase, rfl⟩
  intro n hn
  exact enhInsert_hit base page _ st.controls bRec n hrec hn

/-- A state with a current base control, for the C7 witness. -/
def c7state : ExtractorState :=
  ⟨[("AC-3", ⟨"Access Enforcement", [], 1⟩)], some "AC-3", some "AC-3", none⟩

/-- C7 witness: `claim_C7` applied to the concrete line
`"Control Enhancement: 4, 5"`. -/
theorem claim_C7_witness :
    dictGet (processLine c7state "Control Enhancement: 4, 5" false 2).controls
      "AC-3(4)" = some ⟨"Access Enforcement", [], 2⟩ ∧
    dictGet (processLine c7state "Control Enhancement: 4, 5" false 2).controls
      "AC-3(5)" = some ⟨"Access Enforcement", [], 2⟩ ∧
    (processLine c7state "Control Enhancement: 4, 5" false 2).current_control =
      some "AC-3(5)" ∧
    (processLine c7state "Control Enhancement: 4, 5" false 2).current_attribute =
      none := by
  have h := claim_C7 c7state "Control Enhancement: 4, 5" false 2 "AC-3" "4, 5"
    ⟨"Access Enforcement", [], 1⟩ rfl (by decide) (by decide)
  obtain ⟨h1, h2, _, h4⟩ := h
  refine ⟨?_, ?_, ?_, h4⟩
  · have h14 := h1 "4" (by decide)
    rw [show ("AC-3" ++ "(" ++ pyStrip "4" ++ ")" : String) = "AC-3(4)" by decide]
      at h14
    exact h14
  · have h15 := h1 " 5" (by decide)
    rw [show ("AC-3" ++ "(" ++ pyStrip " 5" ++ ")" : String) = "AC-3(5)" by decide]
      at h15
    exact h15
  · rw [h2]
    decide
